import Mathlib

/-!
Shallow embedding of the core of `src/app.py` (a rent-statement generator):
currency formatting (`brl`), month-token conversion (`mes_to_display`,
`display_to_mes`), the property / configuration / monthly-ledger stores
backed by three SQLite tables, and the subtotal/total computation of the
PDF statement.  Monetary amounts are modelled as exact rationals; SQL NULL
is modelled with `Option`; Python exceptions are modelled with `Except`.
-/

namespace App

/-- A dynamically typed Python value fed to a numeric coercion: either a
value on which `float(x)` succeeds (modelled by the rational it denotes),
or one on which `float(x)` raises (a non-numeric string, `None`, ...). -/
inductive PyValue where
  | num (q : ℚ)
  | nonNum
deriving DecidableEq

/-- Python `float(x)`: returns the numeric value or raises. -/
def pyFloat : PyValue → Except Unit ℚ
  | .num q => .ok q
  | .nonNum => .error ()

/-- Decimal digit character for `d < 10` (48 is the code of the zero digit). -/
def digitChar (d : ℕ) : Char := Nat.digitChar d

/-- Decimal rendering of a natural number, most significant digit first. -/
def natStr (n : ℕ) : List Char :=
  if _h : n < 10 then [digitChar n]
  else natStr (n / 10) ++ [digitChar (n % 10)]
decreasing_by exact Nat.div_lt_self (by omega) (by omega)

/-- Zero-pad a fraction part to two digits (the `.2f` fraction field). -/
def pad2 (n : ℕ) : List Char :=
  if n < 10 then '0' :: natStr n else natStr n

/-- Zero-pad a thousands group to three digits. -/
def pad3 (n : ℕ) : List Char :=
  List.replicate (3 - (natStr n).length) '0' ++ natStr n

/-- Decimal rendering of `n` with `sep` between groups of three digits,
as produced by Python's `,` format specifier on the integer part. -/
def groupedStr (sep : Char) (n : ℕ) : List Char :=
  if _h : n < 1000 then natStr n
  else groupedStr sep (n / 1000) ++ sep :: pad3 (n % 1000)
decreasing_by exact Nat.div_lt_self (by omega) (by omega)

/-- Round a rational to the nearest integer, ties to even (the rounding of
IEEE formatting used by Python's fixed-point `format`). -/
def roundHalfEven (q : ℚ) : ℤ :=
  let f := ⌊q⌋
  if q - f < 1/2 then f
  else if q - f > 1/2 then f + 1
  else if f % 2 = 0 then f else f + 1

/-- Python `f"{v:,.2f}"`: sign, comma-grouped integer part, point, two
fraction digits. -/
def pyFormatCommaTwo (v : ℚ) : List Char :=
  let c := roundHalfEven (100 * v)
  let sign := if v < 0 then ['-'] else []
  sign ++ groupedStr ',' (c.natAbs / 100) ++ '.' :: pad2 (c.natAbs % 100)

/-- Python `str.replace(old, new)` for one-character patterns. -/
def replaceChar (old new : Char) (l : List Char) : List Char :=
  l.map fun c => if c = old then new else c

/-- `brl` (src/app.py:57-63): format a value as Brazilian currency.
`float` failures fall back to `0.0`; the `,.2f` string then has its comma
and point swapped via the `X` placeholder chain, and the `R$ ` prefix is
prepended. -/
def brl (value : PyValue) : String :=
  let v : ℚ := match pyFloat value with
    | .ok q => q
    | .error _ => 0
  let s := pyFormatCommaTwo v
  "R$ " ++ String.mk (replaceChar 'X' '.' (replaceChar '.' ',' (replaceChar ',' 'X' s)))

/-- The digits of a decimal string read back as a natural number. -/
def digitsToNat (l : List Char) : ℕ :=
  l.foldl (fun a c => a * 10 + (c.toNat - 48)) 0

/-- Python `int(s)` restricted to the shapes that occur here: an optional
sign followed by one or more decimal digits parses; anything else raises. -/
def pyInt (l : List Char) : Except Unit ℤ :=
  match l with
  | [] => .error ()
  | c :: rest =>
      if c = '-' then
        if rest ≠ [] ∧ rest.all Char.isDigit then .ok (-(digitsToNat rest : ℤ))
        else .error ()
      else if c = '+' then
        if rest ≠ [] ∧ rest.all Char.isDigit then .ok (digitsToNat rest : ℤ)
        else .error ()
      else
        if (c :: rest).all Char.isDigit then .ok (digitsToNat (c :: rest) : ℤ)
        else .error ()

/-- Python `f"{i:0wd}"`: zero-pad to minimum width `w`, the sign counting
towards the width. -/
def fmtMin (w : ℕ) (i : ℤ) : List Char :=
  let ds := natStr i.natAbs
  let sign := if i < 0 then ['-'] else []
  sign ++ List.replicate (w - (sign.length + ds.length)) '0' ++ ds

/-- Python `s.strip()`: drop leading and trailing whitespace. -/
def pyStrip (s : String) : String :=
  String.mk (((s.data.dropWhile Char.isWhitespace).reverse.dropWhile
    Char.isWhitespace).reverse)

/-- Python `s.split(sep)` for a one-character separator. -/
def splitChar (sep : Char) : List Char → List (List Char)
  | [] => [[]]
  | c :: cs =>
      let r := splitChar sep cs
      if c = sep then [] :: r
      else
        match r with
        | g :: gs => (c :: g) :: gs
        | [] => [[c]]

/-- `mes_to_display` (src/app.py:66-72): `"2026-02" -> "02/2026"`; any
failure (wrong number of parts, unparseable integers) returns the input. -/
def mes_to_display (s : String) : String :=
  match splitChar '-' s.data with
  | [y, m] =>
      match pyInt y, pyInt m with
      | .ok yi, .ok mi => String.mk (fmtMin 2 mi ++ '/' :: fmtMin 4 yi)
      | _, _ => s
  | _ => s

/-- `display_to_mes` (src/app.py:75-81): `"02/2026" -> "2026-02"`; any
failure returns the input. -/
def display_to_mes (s : String) : String :=
  match splitChar '/' s.data with
  | [m, y] =>
      match pyInt m, pyInt y with
      | .ok mi, .ok yi => String.mk (fmtMin 4 yi ++ '-' :: fmtMin 2 mi)
      | _, _ => s
  | _ => s

/-! ## Database model

Rows of the three SQLite tables created by `init_db` (src/app.py:98-173).
Nullable columns are `Option`; `REAL` amounts are rationals; the
`datetime('now')` timestamps are abstract naturals supplied by the caller. -/

/-- A row of the `apartamentos` table. -/
structure AptRow where
  id : ℕ
  apelido : String
  imovel : String
  bairro : String
deriving DecidableEq

/-- A row of the `configs` table (key `apartamento_id`, all other columns
nullable, `vencimento_dia` has SQL default 5). -/
structure ConfigRow where
  apartamento_id : ℕ
  locador_nome : Option String := none
  locador_doc : Option String := none
  locatario_nome : Option String := none
  locatario_doc : Option String := none
  vencimento_dia : Option ℤ := none
  banco : Option String := none
  agencia : Option String := none
  conta : Option String := none
  tipo_conta : Option String := none
  titular : Option String := none
  titular_doc : Option String := none
  pix : Option String := none
  contato_comprovante : Option String := none
deriving DecidableEq

/-- A row of the `lancamentos` table: primary key `(apartamento_id, mes)`,
seven nullable amount columns with their note columns, two timestamps. -/
structure LancRow where
  apartamento_id : ℕ
  mes : String
  aluguel : Option ℚ := none
  aluguel_obs : Option String := none
  condominio : Option ℚ := none
  condominio_obs : Option String := none
  iptu : Option ℚ := none
  iptu_obs : Option String := none
  consumo_agua : Option ℚ := none
  consumo_agua_obs : Option String := none
  seguro_incendio : Option ℚ := none
  seguro_incendio_obs : Option String := none
  outras_taxas : Option ℚ := none
  outras_taxas_obs : Option String := none
  outros_descontos : Option ℚ := none
  outros_descontos_obs : Option String := none
  created_at : ℕ := 0
  updated_at : ℕ := 0
deriving DecidableEq

/-- The whole durable store; `nextAptId` models SQLite AUTOINCREMENT. -/
structure DB where
  apartamentos : List AptRow := []
  configs : List ConfigRow := []
  lancamentos : List LancRow := []
  nextAptId : ℕ := 1
deriving DecidableEq

/-- Possible application-level failures of a store operation. -/
inductive AppError where
  | validationFailed
  | notFound
deriving DecidableEq

/-- Python `x or d` on an optional number (SQL NULL or a falsy `0.0` give
the default). -/
def pyOrQ (o : Option ℚ) (d : ℚ) : ℚ :=
  match o with
  | none => d
  | some q => if q = 0 then d else q

/-- Python `x or d` on an optional string (SQL NULL or `""` give the
default). -/
def pyOrS (o : Option String) (d : String) : String :=
  match o with
  | none => d
  | some s => if s = "" then d else s

/-! ## Property and configuration store -/

/-- `create_apartamento` (src/app.py:287-297): insert the trimmed fields
as a new `apartamentos` row, insert its `configs` row with
`vencimento_dia = 5`, return the fresh id. -/
def create_apartamento (db : DB) (apelido imovel bairro : String) : DB × ℕ :=
  let apt_id := db.nextAptId
  let db' : DB :=
    { db with
      apartamentos := db.apartamentos ++ [⟨apt_id, pyStrip apelido, pyStrip imovel, pyStrip bairro⟩]
      configs := db.configs ++ [{ apartamento_id := apt_id, vencimento_dia := some 5 }]
      nextAptId := apt_id + 1 }
  (db', apt_id)

/-- The sidebar create flow (src/app.py:668-675): reject the submission
when any field is blank after trimming (writing nothing), otherwise call
`create_apartamento`.  This composite is the spec's `createProperty`. -/
def createApartamentoFlow (db : DB) (apelido imovel bairro : String) :
    DB × Except AppError ℕ :=
  if pyStrip apelido = "" ∨ pyStrip imovel = "" ∨ pyStrip bairro = "" then
    (db, .error .validationFailed)
  else
    let r := create_apartamento db apelido imovel bairro
    (r.1, .ok r.2)

/-- `update_apartamento` (src/app.py:300-307): `UPDATE ... WHERE id=?`.
The body raises nothing, so the result is always `.ok`; a missing id
simply matches no row. -/
def update_apartamento (db : DB) (apt_id : ℕ) (apelido imovel bairro : String) :
    Except AppError DB :=
  .ok { db with
        apartamentos := db.apartamentos.map fun r =>
          if r.id = apt_id then
            { r with apelido := pyStrip apelido, imovel := pyStrip imovel, bairro := pyStrip bairro }
          else r }

/-- The dict returned by `load_config` (13 keys, raw column values). -/
structure ConfigView where
  locador_nome : Option String
  locador_doc : Option String
  locatario_nome : Option String
  locatario_doc : Option String
  vencimento_dia : Option ℤ
  banco : Option String
  agencia : Option String
  conta : Option String
  tipo_conta : Option String
  titular : Option String
  titular_doc : Option String
  pix : Option String
  contato_comprovante : Option String
deriving DecidableEq

/-- Project a `configs` row onto the 13 columns `load_config` selects. -/
def configViewOf (r : ConfigRow) : ConfigView :=
  { locador_nome := r.locador_nome, locador_doc := r.locador_doc
    locatario_nome := r.locatario_nome, locatario_doc := r.locatario_doc
    vencimento_dia := r.vencimento_dia, banco := r.banco, agencia := r.agencia
    conta := r.conta, tipo_conta := r.tipo_conta, titular := r.titular
    titular_doc := r.titular_doc, pix := r.pix
    contato_comprovante := r.contato_comprovante }

/-- Lookup of the `configs` row keyed by `apartamento_id`. -/
def findConfig (db : DB) (apt_id : ℕ) : Option ConfigRow :=
  db.configs.find? fun r => r.apartamento_id == apt_id

/-- The `configs` row inserted by the default
`INSERT INTO configs (apartamento_id, vencimento_dia) VALUES (?, 5)`. -/
def defaultConfigRow (apt_id : ℕ) : ConfigRow :=
  { apartamento_id := apt_id, vencimento_dia := some 5 }

/-- `load_config` (src/app.py:310-332): select the row; when missing,
insert the default row and read again (the Python recursion terminates
after that insert; the final fallback branch is unreachable). -/
def load_config (db : DB) (apt_id : ℕ) : DB × ConfigView :=
  match findConfig db apt_id with
  | some r => (db, configViewOf r)
  | none =>
      let db' : DB := { db with configs := db.configs ++ [defaultConfigRow apt_id] }
      match findConfig db' apt_id with
      | some r => (db', configViewOf r)
      | none => (db', configViewOf (defaultConfigRow apt_id))

/-! ## Monthly ledger store -/

/-- The dict returned by `get_lancamento` / `get_latest_lancamento`
(src/app.py:392-401): amounts coerced by `or 0.0`, notes by `or ""`. -/
structure LancView where
  mes : String
  aluguel : ℚ
  aluguel_obs : String
  condominio : ℚ
  condominio_obs : String
  iptu : ℚ
  iptu_obs : String
  consumo_agua : ℚ
  consumo_agua_obs : String
  seguro_incendio : ℚ
  seguro_incendio_obs : String
  outras_taxas : ℚ
  outras_taxas_obs : String
  outros_descontos : ℚ
  outros_descontos_obs : String
deriving DecidableEq

/-- Row-to-dict conversion shared by `get_lancamento` and
`get_latest_lancamento`: `row[i] or 0.0` on amounts, `row[i] or ""` on
notes. -/
def readLanc (r : LancRow) : LancView :=
  { mes := r.mes
    aluguel := pyOrQ r.aluguel 0, aluguel_obs := pyOrS r.aluguel_obs ""
    condominio := pyOrQ r.condominio 0, condominio_obs := pyOrS r.condominio_obs ""
    iptu := pyOrQ r.iptu 0, iptu_obs := pyOrS r.iptu_obs ""
    consumo_agua := pyOrQ r.consumo_agua 0, consumo_agua_obs := pyOrS r.consumo_agua_obs ""
    seguro_incendio := pyOrQ r.seguro_incendio 0
    seguro_incendio_obs := pyOrS r.seguro_incendio_obs ""
    outras_taxas := pyOrQ r.outras_taxas 0, outras_taxas_obs := pyOrS r.outras_taxas_obs ""
    outros_descontos := pyOrQ r.outros_descontos 0
    outros_descontos_obs := pyOrS r.outros_descontos_obs "" }

/-- Key predicate of the `(apartamento_id, mes)` primary key. -/
def keyMatch (r : LancRow) (apt_id : ℕ) (mes : String) : Bool :=
  r.apartamento_id == apt_id && r.mes == mes

/-- `get_lancamento` (src/app.py:373-401): exact-key `SELECT`, `None`
when absent. -/
def get_lancamento (s : List LancRow) (apt_id : ℕ) (mes : String) : Option LancView :=
  (s.find? fun r => keyMatch r apt_id mes).map readLanc

/-- One step of selecting the row with the greatest `mes`. -/
def latestFold (acc : Option LancRow) (r : LancRow) : Option LancRow :=
  match acc with
  | none => some r
  | some a => if a.mes < r.mes then some r else some a

/-- `get_latest_lancamento` (src/app.py:404-435): `ORDER BY mes DESC
LIMIT 1` over the property's rows, i.e. a row whose `mes` is maximal in
the byte-lexicographic string order. -/
def get_latest_lancamento (s : List LancRow) (apt_id : ℕ) : Option LancView :=
  ((s.filter fun r => r.apartamento_id == apt_id).foldl latestFold none).map readLanc

/-- The `data` dict passed to `upsert_lancamento`: each key may be absent;
amount values are arbitrary Python values, note values strings (`none`
also stands for a Python `None`). -/
structure Payload where
  aluguel : Option PyValue := none
  aluguel_obs : Option String := none
  condominio : Option PyValue := none
  condominio_obs : Option String := none
  iptu : Option PyValue := none
  iptu_obs : Option String := none
  consumo_agua : Option PyValue := none
  consumo_agua_obs : Option String := none
  seguro_incendio : Option PyValue := none
  seguro_incendio_obs : Option String := none
  outras_taxas : Option PyValue := none
  outras_taxas_obs : Option String := none
  outros_descontos : Option PyValue := none
  outros_descontos_obs : Option String := none
deriving DecidableEq

/-- The 14 values actually bound into the upsert statement. -/
structure LancData where
  aluguel : ℚ
  aluguel_obs : String
  condominio : ℚ
  condominio_obs : String
  iptu : ℚ
  iptu_obs : String
  consumo_agua : ℚ
  consumo_agua_obs : String
  seguro_incendio : ℚ
  seguro_incendio_obs : String
  outras_taxas : ℚ
  outras_taxas_obs : String
  outros_descontos : ℚ
  outros_descontos_obs : String
deriving DecidableEq

/-- `float(data.get(k, 0.0))`: default `0.0` only when the key is absent;
a present non-numeric value makes `float` raise. -/
def coerceAmount (o : Option PyValue) : Except Unit ℚ :=
  pyFloat (o.getD (.num 0))

/-- `data.get(k, "") or ""`: absent (or `None`) and empty both give `""`. -/
def coerceObs (o : Option String) : String :=
  pyOrS (some (o.getD "")) ""

/-- The parameter coercion of `upsert_lancamento` (src/app.py:487-497). -/
def coercePayload (data : Payload) : Except Unit LancData := do
  let aluguel ← coerceAmount data.aluguel
  let condominio ← coerceAmount data.condominio
  let iptu ← coerceAmount data.iptu
  let consumo_agua ← coerceAmount data.consumo_agua
  let seguro_incendio ← coerceAmount data.seguro_incendio
  let outras_taxas ← coerceAmount data.outras_taxas
  let outros_descontos ← coerceAmount data.outros_descontos
  pure
    { aluguel, aluguel_obs := coerceObs data.aluguel_obs
      condominio, condominio_obs := coerceObs data.condominio_obs
      iptu, iptu_obs := coerceObs data.iptu_obs
      consumo_agua, consumo_agua_obs := coerceObs data.consumo_agua_obs
      seguro_incendio, seguro_incendio_obs := coerceObs data.seguro_incendio_obs
      outras_taxas, outras_taxas_obs := coerceObs data.outras_taxas_obs
      outros_descontos, outros_descontos_obs := coerceObs data.outros_descontos_obs }

/-- The row written by the `INSERT` branch: all 14 values, both
timestamps set to now. -/
def insertRow (apt_id : ℕ) (mes : String) (d : LancData) (now : ℕ) : LancRow :=
  { apartamento_id := apt_id, mes
    aluguel := some d.aluguel, aluguel_obs := some d.aluguel_obs
    condominio := some d.condominio, condominio_obs := some d.condominio_obs
    iptu := some d.iptu, iptu_obs := some d.iptu_obs
    consumo_agua := some d.consumo_agua, consumo_agua_obs := some d.consumo_agua_obs
    seguro_incendio := some d.seguro_incendio
    seguro_incendio_obs := some d.seguro_incendio_obs
    outras_taxas := some d.outras_taxas, outras_taxas_obs := some d.outras_taxas_obs
    outros_descontos := some d.outros_descontos
    outros_descontos_obs := some d.outros_descontos_obs
    created_at := now, updated_at := now }

/-- The `DO UPDATE` branch: overwrite the 14 values and `updated_at`,
keep the key and `created_at`. -/
def updateRow (r : LancRow) (d : LancData) (now : ℕ) : LancRow :=
  { r with
    aluguel := some d.aluguel, aluguel_obs := some d.aluguel_obs
    condominio := some d.condominio, condominio_obs := some d.condominio_obs
    iptu := some d.iptu, iptu_obs := some d.iptu_obs
    consumo_agua := some d.consumo_agua, consumo_agua_obs := some d.consumo_agua_obs
    seguro_incendio := some d.seguro_incendio
    seguro_incendio_obs := some d.seguro_incendio_obs
    outras_taxas := some d.outras_taxas, outras_taxas_obs := some d.outras_taxas_obs
    outros_descontos := some d.outros_descontos
    outros_descontos_obs := some d.outros_descontos_obs
    updated_at := now }

/-- `INSERT ... ON CONFLICT(apartamento_id, mes) DO UPDATE` on the
`lancamentos` table. -/
def sqlUpsertLanc (s : List LancRow) (apt_id : ℕ) (mes : String) (d : LancData)
    (now : ℕ) : List LancRow :=
  if s.any (fun r => keyMatch r apt_id mes) then
    s.map fun r => if keyMatch r apt_id mes then updateRow r d now else r
  else
    s ++ [insertRow apt_id mes d now]

/-- `upsert_lancamento` (src/app.py:438-498): coerce the payload (which
may raise) and run the upsert statement. -/
def upsert_lancamento (s : List LancRow) (apt_id : ℕ) (mes : String)
    (data : Payload) (now : ℕ) : Except Unit (List LancRow) := do
  let d ← coercePayload data
  pure (sqlUpsertLanc s apt_id mes d now)

/-- A history entry of `list_lancamentos` (src/app.py:501-524): month and
the seven amounts, coerced by `or 0.0`. -/
structure ListRow where
  mes : String
  aluguel : ℚ
  condominio : ℚ
  iptu : ℚ
  consumo_agua : ℚ
  seguro_incendio : ℚ
  outras_taxas : ℚ
  outros_descontos : ℚ
deriving DecidableEq

/-- Row-to-dict conversion of `list_lancamentos`. -/
def readListRow (r : LancRow) : ListRow :=
  { mes := r.mes
    aluguel := pyOrQ r.aluguel 0, condominio := pyOrQ r.condominio 0
    iptu := pyOrQ r.iptu 0, consumo_agua := pyOrQ r.consumo_agua 0
    seguro_incendio := pyOrQ r.seguro_incendio 0
    outras_taxas := pyOrQ r.outras_taxas 0
    outros_descontos := pyOrQ r.outros_descontos 0 }

/-- Insertion step of the `ORDER BY mes DESC` sort. -/
def insertDescByMes (r : LancRow) : List LancRow → List LancRow
  | [] => [r]
  | x :: xs => if x.mes < r.mes then r :: x :: xs else x :: insertDescByMes r xs

/-- Sort rows by `mes` descending (the `ORDER BY mes DESC`). -/
def sortDescByMes : List LancRow → List LancRow
  | [] => []
  | x :: xs => insertDescByMes x (sortDescByMes xs)

/-- `list_lancamentos` (src/app.py:501-524): the property's rows ordered
by month descending, as history entries. -/
def list_lancamentos (s : List LancRow) (apt_id : ℕ) : List ListRow :=
  (sortDescByMes (s.filter fun r => r.apartamento_id == apt_id)).map readListRow

/-! ## Pre-fill and statement computation -/

/-- The tab-2 pre-fill base (src/app.py:774-777): the month's own record
when present, else the property's latest record. -/
def tab2_prefill (s : List LancRow) (apt_id : ℕ) (mes : String) : Option LancView :=
  match get_lancamento s apt_id mes with
  | some existing => some existing
  | none => get_latest_lancamento s apt_id

/-- An amount pre-filled into the entry form (src/app.py:782-786):
`base[k]` when a base exists, `0.0` otherwise. -/
def prefillAmount (base : Option LancView) (f : LancView → ℚ) : ℚ :=
  match base with
  | some b => f b
  | none => 0

/-- A note pre-filled into the entry form (src/app.py:789-793). -/
def prefillObs (base : Option LancView) (f : LancView → String) : String :=
  match base with
  | some b => f b
  | none => ""

/-- Number of stored rows with the given `(apartamento_id, mes)` key. -/
def keyCount (s : List LancRow) (apt_id : ℕ) (mes : String) : ℕ :=
  (s.filter fun r => keyMatch r apt_id mes).length

/-- The 14 amount/note columns of a stored row, as a tuple. -/
def dataOf (r : LancRow) :=
  (r.aluguel, r.aluguel_obs, r.condominio, r.condominio_obs, r.iptu, r.iptu_obs,
   r.consumo_agua, r.consumo_agua_obs, r.seguro_incendio, r.seguro_incendio_obs,
   r.outras_taxas, r.outras_taxas_obs, r.outros_descontos, r.outros_descontos_obs)

/-- The column values an upsert with coerced data `d` writes. -/
def writtenData (d : LancData) :=
  (some d.aluguel, some d.aluguel_obs, some d.condominio, some d.condominio_obs,
   some d.iptu, some d.iptu_obs, some d.consumo_agua, some d.consumo_agua_obs,
   some d.seguro_incendio, some d.seguro_incendio_obs,
   some d.outras_taxas, some d.outras_taxas_obs,
   some d.outros_descontos, some d.outros_descontos_obs)

/-- An optional payload amount on which `float` cannot raise: absent, or a
numeric value. -/
def amountOk (o : Option PyValue) : Prop :=
  ∀ v, o = some v → ∃ q, v = PyValue.num q

/-- The number an absent-or-numeric payload amount coerces to. -/
def numValOf (o : Option PyValue) : ℚ :=
  match o with
  | some (.num q) => q
  | _ => 0

/-- The well-formed internal month token `YYYY-MM` for a given year and
month (zero-padded to four and two digits). -/
def mkMes (y m : ℕ) : String :=
  String.mk (fmtMin 4 (y : ℤ) ++ '-' :: fmtMin 2 (m : ℤ))

/-- Swap of the decimal separators, the net effect of the three
`replace` calls in `brl` on strings without an `X`. -/
def swapSep (c : Char) : Char :=
  if c = ',' then '.' else if c = '.' then ',' else c

/-- The subtotal computed inside `generate_pdf_bytes`
(src/app.py:541): the six charges, discounts excluded. -/
def pdf_subtotal (lanc : LancView) : ℚ :=
  lanc.aluguel + lanc.condominio + lanc.iptu + lanc.consumo_agua
    + lanc.seguro_incendio + lanc.outras_taxas

/-- The total computed inside `generate_pdf_bytes` (src/app.py:542):
subtotal minus the discounts, never clamped. -/
def pdf_total (lanc : LancView) : ℚ :=
  pdf_subtotal lanc - lanc.outros_descontos

/-! ## Theorems -/

theorem find?_append_of_none {α} (p : α → Bool) {l₁ : List α} (l₂ : List α)
    (h : l₁.find? p = none) : (l₁ ++ l₂).find? p = l₂.find? p := by
  induction l₁ with
  | nil => rfl
  | cons a l ih =>
      cases hpa : p a with
      | true => simp [List.find?_cons, hpa] at h
      | false =>
          simp only [List.find?_cons, hpa] at h
          simpa [List.find?_cons, hpa] using ih h

/-- Claim C1: the statement computation excludes the discount from the
subtotal, subtracts it for the total, and never clamps: a discount larger
than the subtotal yields a negative total (and, the computation being a
total function of the record, no error is raised). -/
theorem pdf_totals_spec (mes : String) (a b c d e f g : ℚ) :
    pdf_subtotal ⟨mes, a, "", b, "", c, "", d, "", e, "", f, "", g, ""⟩
      = a + b + c + d + e + f ∧
    pdf_total ⟨mes, a, "", b, "", c, "", d, "", e, "", f, "", g, ""⟩
      = (a + b + c + d + e + f) - g ∧
    (a + b + c + d + e + f < g →
      pdf_total ⟨mes, a, "", b, "", c, "", d, "", e, "", f, "", g, ""⟩ < 0) := by
  refine ⟨rfl, rfl, fun h => ?_⟩
  simp only [pdf_total, pdf_subtotal]
  linarith

theorem pdf_totals_spec_witness :
    pdf_total ⟨"2026-01", (1 : ℚ), "", 1, "", 1, "", 1, "", 1, "", 1, "", 10, ""⟩ < 0 :=
  (pdf_totals_spec "2026-01" 1 1 1 1 1 1 10).2.2 (by norm_num)

/-- Claim C6: the create flow trims its three inputs, aborts with a
validation failure writing nothing when any of them is blank after
trimming, and otherwise inserts the property row together with its
configuration row (due-day 5) and returns the fresh id. -/
theorem createApartamentoFlow_spec (db : DB) (apelido imovel bairro : String) :
    (pyStrip apelido = "" ∨ pyStrip imovel = "" ∨ pyStrip bairro = "" →
      createApartamentoFlow db apelido imovel bairro = (db, .error .validationFailed)) ∧
    (pyStrip apelido ≠ "" → pyStrip imovel ≠ "" → pyStrip bairro ≠ "" →
      createApartamentoFlow db apelido imovel bairro =
        ({ db with
           apartamentos := db.apartamentos
             ++ [⟨db.nextAptId, pyStrip apelido, pyStrip imovel, pyStrip bairro⟩]
           configs := db.configs
             ++ [{ apartamento_id := db.nextAptId, vencimento_dia := some 5 }]
           nextAptId := db.nextAptId + 1 }, .ok db.nextAptId)) := by
  constructor
  · intro h
    simp only [createApartamentoFlow, if_pos h]
  · intro h1 h2 h3
    have h : ¬(pyStrip apelido = "" ∨ pyStrip imovel = "" ∨ pyStrip bairro = "") := by tauto
    simp only [createApartamentoFlow, if_neg h, create_apartamento]

theorem createApartamentoFlow_spec_witness :
    createApartamentoFlow {} "Unit A" "Street 1" "City X" =
      ({ apartamentos := [⟨1, "Unit A", "Street 1", "City X"⟩]
         configs := [{ apartamento_id := 1, vencimento_dia := some 5 }]
         lancamentos := []
         nextAptId := 2 }, .ok 1) :=
  (createApartamentoFlow_spec {} "Unit A" "Street 1" "City X").2
    (by decide) (by decide) (by decide)

/-- Claim C7 counterexample: updating a property id that does not exist
does not fail with a not-found error; the operation succeeds and leaves
the stored state unchanged. -/
theorem update_apartamento_missing_id_no_error :
    update_apartamento
        { apartamentos := [⟨1, "A", "B", "C"⟩], configs := [], lancamentos := []
          nextAptId := 2 } 99 "x" "y" "z"
      = .ok { apartamentos := [⟨1, "A", "B", "C"⟩], configs := [], lancamentos := []
              nextAptId := 2 } ∧
    update_apartamento
        { apartamentos := [⟨1, "A", "B", "C"⟩], configs := [], lancamentos := []
          nextAptId := 2 } 99 "x" "y" "z" ≠ .error .notFound := by
  refine ⟨by rfl, fun h => ?_⟩
  simp [update_apartamento] at h

/-- Claim C7 amended: `update_apartamento` never raises; when no property
has the given id it silently leaves the store unchanged, and when one
does, that row's three text fields are overwritten (trimmed). -/
theorem update_apartamento_spec (db : DB) (apt_id : ℕ) (a i b : String) :
    (∀ e, update_apartamento db apt_id a i b ≠ .error e) ∧
    ((∀ r ∈ db.apartamentos, r.id ≠ apt_id) →
      update_apartamento db apt_id a i b = .ok db) ∧
    (∀ db', update_apartamento db apt_id a i b = .ok db' →
      ∀ r ∈ db.apartamentos, r.id = apt_id →
        (⟨apt_id, pyStrip a, pyStrip i, pyStrip b⟩ : AptRow) ∈ db'.apartamentos) := by
  refine ⟨fun e h => by simp [update_apartamento] at h, fun h => ?_, ?_⟩
  · simp only [update_apartamento, Except.ok.injEq]
    have hmap : db.apartamentos.map (fun r =>
        if r.id = apt_id then
          { r with apelido := pyStrip a, imovel := pyStrip i, bairro := pyStrip b }
        else r) = db.apartamentos.map id := by
      refine List.map_congr_left fun r hr => ?_
      simp [if_neg (h r hr)]
    rw [hmap, List.map_id]
  · intro db' hdb' r hr hid
    have : db' = { db with apartamentos := db.apartamentos.map (fun r =>
        if r.id = apt_id then
          { r with apelido := pyStrip a, imovel := pyStrip i, bairro := pyStrip b }
        else r) } := by
      simpa [update_apartamento] using hdb'.symm
    subst this
    have hmem := List.mem_map_of_mem (f := fun r =>
        if r.id = apt_id then
          { r with apelido := pyStrip a, imovel := pyStrip i, bairro := pyStrip b }
        else r) hr
    simpa [if_pos hid, hid] using hmem

theorem update_apartamento_spec_witness :
    update_apartamento {} 1 "x" "y" "z" = .ok {} :=
  (update_apartamento_spec {} 1 "x" "y" "z").2.1 (by simp)

/-- Claim C9: `load_config` never fails to produce a configuration.  When
a row for the id exists it is returned with the store untouched; when
none exists — even when no property with that id exists, the property
table being irrelevant to the lookup — a fresh configuration row with
due-day 5 and all other fields null is inserted under that id (an orphan
row for a nonexistent property id) and returned. -/
theorem load_config_spec (db : DB) (apt_id : ℕ) :
    (∀ r, findConfig db apt_id = some r → load_config db apt_id = (db, configViewOf r)) ∧
    (findConfig db apt_id = none →
      (load_config db apt_id).1
          = { db with configs := db.configs ++ [defaultConfigRow apt_id] } ∧
      (load_config db apt_id).2 = configViewOf (defaultConfigRow apt_id) ∧
      (load_config db apt_id).2.vencimento_dia = some 5 ∧
      (load_config db apt_id).2.locador_nome = none) ∧
    (findConfig (load_config db apt_id).1 apt_id).isSome = true ∧
    (load_config db apt_id).1.apartamentos = db.apartamentos := by
  have hsingle : ([defaultConfigRow apt_id].find?
      fun r => r.apartamento_id == apt_id) = some (defaultConfigRow apt_id) := by
    simp [List.find?, defaultConfigRow]
  have hsome : ∀ r, findConfig db apt_id = some r →
      load_config db apt_id = (db, configViewOf r) := by
    intro r hr
    simp only [load_config, hr]
  have hnoneEq : findConfig db apt_id = none →
      load_config db apt_id =
        ({ db with configs := db.configs ++ [defaultConfigRow apt_id] },
         configViewOf (defaultConfigRow apt_id)) := by
    intro hnone
    have happ : findConfig
        { db with configs := db.configs ++ [defaultConfigRow apt_id] } apt_id
        = some (defaultConfigRow apt_id) := by
      simpa [findConfig] using
        (find?_append_of_none _ [defaultConfigRow apt_id] hnone).trans hsingle
    simp only [load_config, hnone, happ]
  refine ⟨hsome, fun hnone => ?_, ?_, ?_⟩
  · rw [hnoneEq hnone]
    exact ⟨rfl, rfl, rfl, rfl⟩
  · cases hfind : findConfig db apt_id with
    | some r => rw [hsome r hfind]; simp [hfind]
    | none =>
        rw [hnoneEq hfind]
        have happ : findConfig
            { db with configs := db.configs ++ [defaultConfigRow apt_id] } apt_id
            = some (defaultConfigRow apt_id) := by
          simpa [findConfig] using
            (find?_append_of_none _ [defaultConfigRow apt_id] hfind).trans hsingle
        simp [happ]
  · cases hfind : findConfig db apt_id with
    | some r => rw [hsome r hfind]
    | none => rw [hnoneEq hfind]

theorem load_config_spec_witness :
    load_config {} 7 =
      ({ configs := [defaultConfigRow 7] }, configViewOf (defaultConfigRow 7)) := by
  have h := (load_config_spec {} 7).2.1 (by rfl)
  have h1 := h.1
  have h2 := h.2.1
  exact Prod.ext h1 h2

theorem pyOrQ_getD (o : Option ℚ) : pyOrQ o 0 = o.getD 0 := by
  cases o with
  | none => rfl
  | some q =>
      show (if q = 0 then 0 else q) = q
      split_ifs with h
      · exact h.symm
      · rfl

theorem pyOrS_getD (o : Option String) : pyOrS o "" = o.getD "" := by
  cases o with
  | none => rfl
  | some t =>
      show (if t = "" then "" else t) = t
      split_ifs with h
      · exact h.symm
      · rfl

theorem latestFold_foldl_spec (l : List LancRow) :
    ∀ (acc : Option LancRow) (r : LancRow), l.foldl latestFold acc = some r →
      (acc = some r ∨ r ∈ l) ∧
      (∀ a, acc = some a → a.mes ≤ r.mes) ∧
      (∀ x ∈ l, x.mes ≤ r.mes) := by
  induction l with
  | nil =>
      intro acc r h
      simp only [List.foldl_nil] at h
      refine ⟨.inl h, fun a ha => ?_, by simp⟩
      rw [h] at ha
      cases ha
      exact le_refl _
  | cons x xs ih =>
      intro acc r h
      rw [List.foldl_cons] at h
      obtain ⟨hmem, hacc, hall⟩ := ih (latestFold acc x) r h
      have hstep : ∀ a, acc = some a → a.mes ≤ r.mes := by
        intro a ha
        subst ha
        by_cases hlt : a.mes < x.mes
        · have hx : x.mes ≤ r.mes := hacc x (by simp [latestFold, hlt])
          exact le_trans (le_of_lt hlt) hx
        · exact hacc a (by simp [latestFold, hlt])
      have hx_le : x.mes ≤ r.mes := by
        cases acc with
        | none => exact hacc x rfl
        | some a =>
            by_cases hlt : a.mes < x.mes
            · exact hacc x (by simp [latestFold, hlt])
            · exact le_trans (le_of_not_lt hlt) (hacc a (by simp [latestFold, hlt]))
      refine ⟨?_, hstep, ?_⟩
      · cases hmem with
        | inr hr => exact .inr (List.mem_cons_of_mem _ hr)
        | inl heq =>
            cases acc with
            | none =>
                have : x = r := by simpa [latestFold] using heq
                exact .inr (this ▸ List.mem_cons_self x xs)
            | some a =>
                by_cases hlt : a.mes < x.mes
                · have : x = r := by simpa [latestFold, hlt] using heq
                  exact .inr (this ▸ List.mem_cons_self x xs)
                · have : a = r := by simpa [latestFold, hlt] using heq
                  exact .inl (by rw [this])
      · intro y hy
        rcases List.mem_cons.mp hy with hyx | hyxs
        · exact hyx ▸ hx_le
        · exact hall y hyxs

theorem mem_insertDescByMes {x r : LancRow} : ∀ {l : List LancRow},
    x ∈ insertDescByMes r l → x = r ∨ x ∈ l := by
  intro l
  induction l with
  | nil => intro h; simpa [insertDescByMes] using h
  | cons y ys ih =>
      intro h
      by_cases hlt : y.mes < r.mes
      · simp only [insertDescByMes, if_pos hlt] at h
        rcases List.mem_cons.mp h with h1 | h2
        · exact .inl h1
        · exact .inr h2
      · simp only [insertDescByMes, if_neg hlt] at h
        rcases List.mem_cons.mp h with h1 | h2
        · exact .inr (h1 ▸ List.mem_cons_self y ys)
        · rcases ih h2 with h3 | h4
          · exact .inl h3
          · exact .inr (List.mem_cons_of_mem _ h4)

theorem mem_sortDescByMes {x : LancRow} : ∀ {l : List LancRow},
    x ∈ sortDescByMes l → x ∈ l := by
  intro l
  induction l with
  | nil => intro h; simp [sortDescByMes] at h
  | cons y ys ih =>
      intro h
      simp only [sortDescByMes] at h
      rcases mem_insertDescByMes h with h1 | h2
      · exact h1 ▸ List.mem_cons_self y ys
      · exact List.mem_cons_of_mem _ (ih h2)

/-- Claim C5: pre-fill takes the target month's own record whenever the
exact-key lookup finds one (never another month's record); only on a miss
does it fall back to the property's record with the greatest month token;
when both lookups miss, every pre-filled amount is zero and every note
empty. -/
theorem tab2_prefill_spec (s : List LancRow) (apt_id : ℕ) (mes : String) :
    (∀ e, get_lancamento s apt_id mes = some e → tab2_prefill s apt_id mes = some e) ∧
    (get_lancamento s apt_id mes = none →
      tab2_prefill s apt_id mes = get_latest_lancamento s apt_id) ∧
    (∀ v, get_latest_lancamento s apt_id = some v →
      ∃ r ∈ s, r.apartamento_id = apt_id ∧ v = readLanc r ∧
        ∀ r' ∈ s, r'.apartamento_id = apt_id → r'.mes ≤ r.mes) ∧
    (get_lancamento s apt_id mes = none → get_latest_lancamento s apt_id = none →
      tab2_prefill s apt_id mes = none ∧
      (∀ f, prefillAmount (tab2_prefill s apt_id mes) f = 0) ∧
      (∀ f, prefillObs (tab2_prefill s apt_id mes) f = "")) := by
  refine ⟨fun e he => ?_, fun h => ?_, fun v hv => ?_, fun h1 h2 => ?_⟩
  · simp only [tab2_prefill, he]
  · simp only [tab2_prefill, h]
  · obtain ⟨r0, hfold, hread⟩ := Option.map_eq_some'.mp hv
    obtain ⟨hmem, -, hmax⟩ := latestFold_foldl_spec _ none r0 hfold
    have hr0 : r0 ∈ s.filter fun r => r.apartamento_id == apt_id := by
      rcases hmem with h | h
      · cases h
      · exact h
    have hr0s : r0 ∈ s ∧ r0.apartamento_id = apt_id := by
      simpa [List.mem_filter] using hr0
    refine ⟨r0, hr0s.1, hr0s.2, hread.symm, fun r' hr' hr'apt => ?_⟩
    exact hmax r' (by simp [List.mem_filter, hr', hr'apt])
  · have hpre : tab2_prefill s apt_id mes = none := by
      simp only [tab2_prefill, h1, h2]
    exact ⟨hpre, fun f => by simp [prefillAmount, hpre], fun f => by simp [prefillObs, hpre]⟩

theorem tab2_prefill_spec_witness :
    tab2_prefill [{ apartamento_id := 1, mes := "2026-01" }] 1 "2026-02"
      = get_latest_lancamento [{ apartamento_id := 1, mes := "2026-01" }] 1 :=
  (tab2_prefill_spec [{ apartamento_id := 1, mes := "2026-01" }] 1 "2026-02").2.1 (by rfl)

/-- Claim C10: the records returned by the three read operations carry
plain numbers and strings: a NULL amount column is read back as zero, a
NULL note column as the empty string, and every returned record is the
coerced image of a stored row. -/
theorem read_null_coercion_spec :
    (∀ r : LancRow, readLanc r =
      { mes := r.mes
        aluguel := r.aluguel.getD 0, aluguel_obs := r.aluguel_obs.getD ""
        condominio := r.condominio.getD 0, condominio_obs := r.condominio_obs.getD ""
        iptu := r.iptu.getD 0, iptu_obs := r.iptu_obs.getD ""
        consumo_agua := r.consumo_agua.getD 0
        consumo_agua_obs := r.consumo_agua_obs.getD ""
        seguro_incendio := r.seguro_incendio.getD 0
        seguro_incendio_obs := r.seguro_incendio_obs.getD ""
        outras_taxas := r.outras_taxas.getD 0
        outras_taxas_obs := r.outras_taxas_obs.getD ""
        outros_descontos := r.outros_descontos.getD 0
        outros_descontos_obs := r.outros_descontos_obs.getD "" }) ∧
    (∀ (s : List LancRow) (p : ℕ) (m : String) (v : LancView),
      get_lancamento s p m = some v → ∃ r ∈ s, keyMatch r p m = true ∧ v = readLanc r) ∧
    (∀ (s : List LancRow) (p : ℕ) (v : LancView),
      get_latest_lancamento s p = some v → ∃ r ∈ s, r.apartamento_id = p ∧ v = readLanc r) ∧
    (∀ (s : List LancRow) (p : ℕ) (e : ListRow),
      e ∈ list_lancamentos s p → ∃ r ∈ s, r.apartamento_id = p ∧ e = readListRow r) ∧
    (∀ r : LancRow, readListRow r =
      { mes := r.mes
        aluguel := r.aluguel.getD 0, condominio := r.condominio.getD 0
        iptu := r.iptu.getD 0, consumo_agua := r.consumo_agua.getD 0
        seguro_incendio := r.seguro_incendio.getD 0
        outras_taxas := r.outras_taxas.getD 0
        outros_descontos := r.outros_descontos.getD 0 }) := by
  refine ⟨fun r => ?_, fun s p m v hv => ?_, fun s p v hv => ?_, fun s p e he => ?_,
    fun r => ?_⟩
  · simp only [readLanc, pyOrQ_getD, pyOrS_getD]
  · obtain ⟨r, hfind, hread⟩ := Option.map_eq_some'.mp hv
    have hkey := List.find?_some hfind
    exact ⟨r, List.mem_of_find?_eq_some hfind, hkey, hread.symm⟩
  · obtain ⟨r0, hfold, hread⟩ := Option.map_eq_some'.mp hv
    obtain ⟨hmem, -, -⟩ := latestFold_foldl_spec _ none r0 hfold
    have hr0 : r0 ∈ s.filter fun r => r.apartamento_id == p := by
      rcases hmem with h | h
      · cases h
      · exact h
    have hr0s : r0 ∈ s ∧ r0.apartamento_id = p := by
      simpa [List.mem_filter] using hr0
    exact ⟨r0, hr0s.1, hr0s.2, hread.symm⟩
  · obtain ⟨r0, hr0, hread⟩ := List.mem_map.mp he
    have hr0f := mem_sortDescByMes hr0
    have hr0s : r0 ∈ s ∧ r0.apartamento_id = p := by
      simpa [List.mem_filter] using hr0f
    exact ⟨r0, hr0s.1, hr0s.2, hread.symm⟩
  · simp only [readListRow, pyOrQ_getD]

theorem read_null_coercion_spec_witness :
    ∃ r ∈ [({ apartamento_id := 1, mes := "2026-01" } : LancRow)],
      keyMatch r 1 "2026-01" = true ∧
      readLanc { apartamento_id := 1, mes := "2026-01" } = readLanc r :=
  read_null_coercion_spec.2.1 [{ apartamento_id := 1, mes := "2026-01" }] 1 "2026-01"
    (readLanc { apartamento_id := 1, mes := "2026-01" }) (by rfl)

theorem keyMatch_insertRow (p : ℕ) (m : String) (d : LancData) (t : ℕ) :
    keyMatch (insertRow p m d t) p m = true := by
  simp [keyMatch, insertRow]

theorem keyMatch_updateRow (r : LancRow) (p : ℕ) (m : String) (d : LancData) (t : ℕ) :
    keyMatch (updateRow r d t) p m = keyMatch r p m := by
  simp [keyMatch, updateRow]

theorem dataOf_insertRow (p : ℕ) (m : String) (d : LancData) (t : ℕ) :
    dataOf (insertRow p m d t) = writtenData d := rfl

theorem dataOf_updateRow (r : LancRow) (d : LancData) (t : ℕ) :
    dataOf (updateRow r d t) = writtenData d := rfl

theorem keyCount_map_update (s : List LancRow) (p : ℕ) (m : String) (d : LancData)
    (t : ℕ) :
    keyCount (s.map fun r => if keyMatch r p m then updateRow r d t else r) p m
      = keyCount s p m := by
  induction s with
  | nil => rfl
  | cons r rs ih =>
      by_cases h : keyMatch r p m = true
      · simp only [List.map_cons, if_pos h]
        unfold keyCount at ih ⊢
        rw [List.filter_cons, List.filter_cons, keyMatch_updateRow, h]
        simpa using ih
      · simp only [List.map_cons, if_neg h]
        unfold keyCount at ih ⊢
        rw [List.filter_cons, List.filter_cons]
        simp only [h]
        exact ih

theorem any_key_pos (s : List LancRow) (p : ℕ) (m : String) :
    s.any (fun r => keyMatch r p m) = true ↔ 0 < keyCount s p m := by
  unfold keyCount
  rw [List.any_eq_true, List.length_pos, Ne, List.filter_eq_nil_iff]
  push_neg
  constructor
  · rintro ⟨r, hr, hk⟩
    exact ⟨r, hr, by simp [hk]⟩
  · rintro ⟨r, hr, hk⟩
    exact ⟨r, hr, by simpa using hk⟩

theorem keyCount_sqlUpsertLanc (s : List LancRow) (p : ℕ) (m : String) (d : LancData)
    (t : ℕ) (h : keyCount s p m ≤ 1) :
    keyCount (sqlUpsertLanc s p m d t) p m = 1 := by
  by_cases hany : s.any (fun r => keyMatch r p m) = true
  · have hpos := (any_key_pos s p m).mp hany
    simp only [sqlUpsertLanc, if_pos hany]
    rw [keyCount_map_update]
    omega
  · have h0 : keyCount s p m = 0 := by
      rcases Nat.eq_zero_or_pos (keyCount s p m) with h0 | hpos
      · exact h0
      · exact absurd ((any_key_pos s p m).mpr hpos) hany
    rw [sqlUpsertLanc, if_neg (by simp [hany])]
    unfold keyCount at h0 ⊢
    rw [List.filter_append, List.length_append, h0]
    simp [List.filter_cons, keyMatch_insertRow]

theorem mem_sqlUpsertLanc_key (s : List LancRow) (p : ℕ) (m : String) (d : LancData)
    (t : ℕ) :
    ∀ r' ∈ sqlUpsertLanc s p m d t, keyMatch r' p m = true →
      (r' = insertRow p m d t ∧ s.any (fun r => keyMatch r p m) = false) ∨
      (∃ r0 ∈ s, keyMatch r0 p m = true ∧ r' = updateRow r0 d t) := by
  intro r' hr' hk
  by_cases hany : s.any (fun r => keyMatch r p m) = true
  · rw [sqlUpsertLanc, if_pos hany] at hr'
    obtain ⟨r0, hr0, heq⟩ := List.mem_map.mp hr'
    by_cases h0 : keyMatch r0 p m = true
    · exact .inr ⟨r0, hr0, h0, by rw [← heq, if_pos h0]⟩
    · rw [if_neg h0] at heq
      rw [← heq] at hk
      exact absurd hk h0
  · rw [sqlUpsertLanc, if_neg (by simp [hany])] at hr'
    rcases List.mem_append.mp hr' with h | h
    · exfalso
      exact hany (List.any_eq_true.mpr ⟨r', h, by simp [hk]⟩)
    · exact .inl ⟨by simpa using h, by simpa using hany⟩

theorem written_sqlUpsertLanc (s : List LancRow) (p : ℕ) (m : String) (d : LancData)
    (t : ℕ) :
    ∀ r' ∈ sqlUpsertLanc s p m d t, keyMatch r' p m = true →
      dataOf r' = writtenData d ∧ r'.updated_at = t := by
  intro r' hr' hk
  rcases mem_sqlUpsertLanc_key s p m d t r' hr' hk with ⟨heq, -⟩ | ⟨r0, -, -, heq⟩
  · rw [heq]
    exact ⟨dataOf_insertRow p m d t, rfl⟩
  · rw [heq]
    exact ⟨dataOf_updateRow r0 d t, rfl⟩

theorem updateRow_of_dataOf_eq (r : LancRow) (d : LancData) (t : ℕ)
    (h : dataOf r = writtenData d) : updateRow r d t = { r with updated_at := t } := by
  cases r
  simp only [dataOf, writtenData, Prod.mk.injEq] at h
  obtain ⟨h1, h2, h3, h4, h5, h6, h7, h8, h9, h10, h11, h12, h13, h14⟩ := h
  simp [updateRow, h1, h2, h3, h4, h5, h6, h7, h8, h9, h10, h11, h12, h13, h14]

/-- Claim C2: upserting key `(p, m)` twice leaves exactly one stored row
for the key; after `X` then `Y` the row carries `Y`'s amounts and notes;
after `X` twice the row equals the row after the first upsert except for
its updated-at timestamp. -/
theorem upsert_record_spec (s : List LancRow) (p : ℕ) (m : String) (X Y : Payload)
    (dX dY : LancData) (t₁ t₂ : ℕ)
    (hX : coercePayload X = .ok dX) (hY : coercePayload Y = .ok dY)
    (hs : keyCount s p m ≤ 1) :
    upsert_lancamento s p m X t₁ = .ok (sqlUpsertLanc s p m dX t₁) ∧
    upsert_lancamento (sqlUpsertLanc s p m dX t₁) p m Y t₂
      = .ok (sqlUpsertLanc (sqlUpsertLanc s p m dX t₁) p m dY t₂) ∧
    keyCount (sqlUpsertLanc (sqlUpsertLanc s p m dX t₁) p m dY t₂) p m = 1 ∧
    (∀ r ∈ sqlUpsertLanc (sqlUpsertLanc s p m dX t₁) p m dY t₂,
      keyMatch r p m = true → dataOf r = writtenData dY ∧ r.updated_at = t₂) ∧
    keyCount (sqlUpsertLanc (sqlUpsertLanc s p m dX t₁) p m dX t₂) p m = 1 ∧
    (∀ r ∈ sqlUpsertLanc (sqlUpsertLanc s p m dX t₁) p m dX t₂,
      keyMatch r p m = true →
        ∃ r₁ ∈ sqlUpsertLanc s p m dX t₁, keyMatch r₁ p m = true ∧
          r = { r₁ with updated_at := t₂ }) := by
  have hs₁ : keyCount (sqlUpsertLanc s p m dX t₁) p m = 1 :=
    keyCount_sqlUpsertLanc s p m dX t₁ hs
  refine ⟨by simp [upsert_lancamento, hX], by simp [upsert_lancamento, hY],
    keyCount_sqlUpsertLanc _ p m dY t₂ (by omega),
    written_sqlUpsertLanc _ p m dY t₂,
    keyCount_sqlUpsertLanc _ p m dX t₂ (by omega), ?_⟩
  intro r hr hk
  rcases mem_sqlUpsertLanc_key _ p m dX t₂ r hr hk with ⟨-, hnone⟩ | ⟨r₁, hr₁, hk₁, heq⟩
  · exfalso
    have : ¬ (sqlUpsertLanc s p m dX t₁).any (fun r => keyMatch r p m) = true := by
      simp [hnone]
    exact this ((any_key_pos _ p m).mpr (by omega))
  · have hdata := (written_sqlUpsertLanc s p m dX t₁ r₁ hr₁ hk₁).1
    exact ⟨r₁, hr₁, hk₁, heq.trans (updateRow_of_dataOf_eq r₁ dX t₂ hdata)⟩

theorem upsert_record_spec_witness :
    keyCount (sqlUpsertLanc (sqlUpsertLanc [] 1 "2026-01"
        ⟨0, "", 0, "", 0, "", 0, "", 0, "", 0, "", 0, ""⟩ 0) 1 "2026-01"
        ⟨0, "", 0, "", 0, "", 0, "", 0, "", 0, "", 0, ""⟩ 1) 1 "2026-01" = 1 :=
  (upsert_record_spec [] 1 "2026-01" {} {}
      ⟨0, "", 0, "", 0, "", 0, "", 0, "", 0, "", 0, ""⟩
      ⟨0, "", 0, "", 0, "", 0, "", 0, "", 0, "", 0, ""⟩ 0 1
      (by rfl) (by rfl) (by decide)).2.2.1

/-- Claim C8 counterexample: a payload whose rent amount is present but
not numerically parseable makes the upsert raise instead of being
treated as 0.0. -/
theorem upsert_raises_on_non_numeric :
    upsert_lancamento [] 1 "2026-01" { aluguel := some .nonNum } 0 = .error () := by
  rfl

theorem coerceAmount_ok (o : Option PyValue) (h : amountOk o) :
    coerceAmount o = .ok (numValOf o) := by
  cases o with
  | none => rfl
  | some v =>
      obtain ⟨q, rfl⟩ := h v rfl
      rfl

theorem coerceObs_getD (o : Option String) : coerceObs o = o.getD "" := by
  rw [coerceObs, pyOrS_getD]
  simp

theorem coercePayload_error_of (data : Payload)
    (h : coerceAmount data.aluguel = .error () ∨
         coerceAmount data.condominio = .error () ∨
         coerceAmount data.iptu = .error () ∨
         coerceAmount data.consumo_agua = .error () ∨
         coerceAmount data.seguro_incendio = .error () ∨
         coerceAmount data.outras_taxas = .error () ∨
         coerceAmount data.outros_descontos = .error ()) :
    coercePayload data = .error () := by
  unfold coercePayload
  cases hc1 : coerceAmount data.aluguel with
  | error e => cases e; rfl
  | ok a1 =>
  cases hc2 : coerceAmount data.condominio with
  | error e => cases e; rfl
  | ok a2 =>
  cases hc3 : coerceAmount data.iptu with
  | error e => cases e; rfl
  | ok a3 =>
  cases hc4 : coerceAmount data.consumo_agua with
  | error e => cases e; rfl
  | ok a4 =>
  cases hc5 : coerceAmount data.seguro_incendio with
  | error e => cases e; rfl
  | ok a5 =>
  cases hc6 : coerceAmount data.outras_taxas with
  | error e => cases e; rfl
  | ok a6 =>
  cases hc7 : coerceAmount data.outros_descontos with
  | error e => cases e; rfl
  | ok a7 =>
      rcases h with h | h | h | h | h | h | h <;> simp_all

/-- Claim C8 amended: the coercion defaults a missing amount to zero and
an absent note to the empty string, and stores any parseable number
exactly as given — negative values included, with no non-negativity
clamping; but a present amount on which numeric parsing fails raises an
exception that aborts the upsert instead of being treated as 0.0. -/
theorem coercePayload_spec (data : Payload) :
    ((amountOk data.aluguel ∧ amountOk data.condominio ∧ amountOk data.iptu ∧
      amountOk data.consumo_agua ∧ amountOk data.seguro_incendio ∧
      amountOk data.outras_taxas ∧ amountOk data.outros_descontos) →
      coercePayload data = .ok
        { aluguel := numValOf data.aluguel
          aluguel_obs := data.aluguel_obs.getD ""
          condominio := numValOf data.condominio
          condominio_obs := data.condominio_obs.getD ""
          iptu := numValOf data.iptu
          iptu_obs := data.iptu_obs.getD ""
          consumo_agua := numValOf data.consumo_agua
          consumo_agua_obs := data.consumo_agua_obs.getD ""
          seguro_incendio := numValOf data.seguro_incendio
          seguro_incendio_obs := data.seguro_incendio_obs.getD ""
          outras_taxas := numValOf data.outras_taxas
          outras_taxas_obs := data.outras_taxas_obs.getD ""
          outros_descontos := numValOf data.outros_descontos
          outros_descontos_obs := data.outros_descontos_obs.getD "" }) ∧
    ((data.aluguel = some .nonNum ∨ data.condominio = some .nonNum ∨
      data.iptu = some .nonNum ∨ data.consumo_agua = some .nonNum ∨
      data.seguro_incendio = some .nonNum ∨ data.outras_taxas = some .nonNum ∨
      data.outros_descontos = some .nonNum) →
      coercePayload data = .error ()) ∧
    (∀ q : ℚ, numValOf (some (.num q)) = q) ∧
    numValOf none = 0 := by
  refine ⟨fun ⟨h1, h2, h3, h4, h5, h6, h7⟩ => ?_, fun h => ?_, fun q => rfl, rfl⟩
  · rw [coercePayload, coerceAmount_ok _ h1, coerceAmount_ok _ h2, coerceAmount_ok _ h3,
      coerceAmount_ok _ h4, coerceAmount_ok _ h5, coerceAmount_ok _ h6,
      coerceAmount_ok _ h7]
    simp only [coerceObs_getD]
    rfl
  · refine coercePayload_error_of data ?_
    rcases h with h | h | h | h | h | h | h <;>
      simp [h, coerceAmount, pyFloat]

theorem coercePayload_spec_witness :
    coercePayload { aluguel := some (.num (-5)) } = .ok
      { aluguel := (-5 : ℚ), aluguel_obs := ""
        condominio := 0, condominio_obs := ""
        iptu := 0, iptu_obs := ""
        consumo_agua := 0, consumo_agua_obs := ""
        seguro_incendio := 0, seguro_incendio_obs := ""
        outras_taxas := 0, outras_taxas_obs := ""
        outros_descontos := 0, outros_descontos_obs := "" } :=
  (coercePayload_spec { aluguel := some (.num (-5)) }).1 (by
    refine ⟨fun v hv => ⟨-5, (Option.some.inj hv).symm⟩, ?_, ?_, ?_, ?_, ?_, ?_⟩ <;>
      exact fun v hv => nomatch hv)

theorem digitChar_isDigit {d : ℕ} (h : d < 10) : (digitChar d).isDigit = true := by
  interval_cases d <;> decide

theorem digitChar_toNat_sub {d : ℕ} (h : d < 10) : (digitChar d).toNat - 48 = d := by
  interval_cases d <;> decide

theorem natStr_digits (n : ℕ) : ∀ c ∈ natStr n, c.isDigit = true := by
  induction n using Nat.strong_induction_on with
  | _ n ih =>
      intro c hc
      rw [natStr] at hc
      split_ifs at hc with h
      · have : c = digitChar n := by simpa using hc
        exact this ▸ digitChar_isDigit h
      · rcases List.mem_append.mp hc with h1 | h2
        · exact ih (n / 10) (Nat.div_lt_self (by omega) (by omega)) c h1
        · have : c = digitChar (n % 10) := by simpa using h2
          exact this ▸ digitChar_isDigit (Nat.mod_lt _ (by omega))

theorem natStr_ne_nil (n : ℕ) : natStr n ≠ [] := by
  rw [natStr]
  split_ifs with h <;> simp

theorem digitsToNat_append (l : List Char) (c : Char) :
    digitsToNat (l ++ [c]) = digitsToNat l * 10 + (c.toNat - 48) := by
  simp [digitsToNat, List.foldl_append]

theorem digitsToNat_natStr (n : ℕ) : digitsToNat (natStr n) = n := by
  induction n using Nat.strong_induction_on with
  | _ n ih =>
      rw [natStr]
      split_ifs with h
      · show 0 * 10 + ((digitChar n).toNat - 48) = n
        rw [digitChar_toNat_sub h]
        omega
      · rw [digitsToNat_append, ih (n / 10) (Nat.div_lt_self (by omega) (by omega)),
          digitChar_toNat_sub (Nat.mod_lt _ (by omega))]
        omega

theorem digitsToNat_replicate_zero (k : ℕ) (l : List Char) :
    digitsToNat (List.replicate k '0' ++ l) = digitsToNat l := by
  induction k with
  | zero => rfl
  | succ k ih =>
      rw [List.replicate_succ, List.cons_append]
      show digitsToNat (List.replicate k '0' ++ l) = digitsToNat l
      exact ih

theorem isDigit_ne_seps {c : Char} (h : c.isDigit = true) :
    c ≠ '-' ∧ c ≠ '+' ∧ c ≠ '/' := by
  refine ⟨?_, ?_, ?_⟩ <;> (rintro rfl; exact absurd h (by decide))

theorem fmtMin_nat (w n : ℕ) :
    fmtMin w (n : ℤ) = List.replicate (w - (natStr n).length) '0' ++ natStr n := by
  have h0 : ¬((n : ℤ) < 0) := by
    have := Int.natCast_nonneg n
    omega
  simp [fmtMin, h0, Int.natAbs_ofNat]

theorem fmtMin_nat_all_digits (w n : ℕ) :
    ∀ c ∈ fmtMin w (n : ℤ), c.isDigit = true := by
  rw [fmtMin_nat]
  intro c hc
  rcases List.mem_append.mp hc with h1 | h2
  · have : c = '0' := List.eq_of_mem_replicate h1
    exact this ▸ (by decide)
  · exact natStr_digits n c h2

theorem fmtMin_nat_ne_nil (w n : ℕ) : fmtMin w (n : ℤ) ≠ [] := by
  rw [fmtMin_nat]
  intro h
  exact natStr_ne_nil n (List.append_eq_nil.mp h).2

theorem digitsToNat_fmtMin_nat (w n : ℕ) : digitsToNat (fmtMin w (n : ℤ)) = n := by
  rw [fmtMin_nat, digitsToNat_replicate_zero, digitsToNat_natStr]

theorem pyInt_fmtMin_nat (w n : ℕ) : pyInt (fmtMin w (n : ℤ)) = .ok (n : ℤ) := by
  obtain ⟨c, rest, hcons⟩ := List.exists_cons_of_ne_nil (fmtMin_nat_ne_nil w n)
  have hall : ∀ x ∈ fmtMin w (n : ℤ), x.isDigit = true := fmtMin_nat_all_digits w n
  have hc : c.isDigit = true := hall c (hcons ▸ List.mem_cons_self c rest)
  have hball : (c :: rest).all Char.isDigit = true := by
    rw [List.all_eq_true]
    intro x hx
    simpa using hall x (hcons ▸ hx)
  rw [hcons, pyInt, if_neg (isDigit_ne_seps hc).1, if_neg (isDigit_ne_seps hc).2.1,
    if_pos hball]
  have := digitsToNat_fmtMin_nat w n
  rw [hcons] at this
  rw [this]

theorem splitChar_of_not_mem (sep : Char) : ∀ {l : List Char}, sep ∉ l →
    splitChar sep l = [l] := by
  intro l
  induction l with
  | nil => intro _; rfl
  | cons c cs ih =>
      intro h
      have hc : ¬(c = sep) := fun hcs => h (hcs ▸ List.mem_cons_self c cs)
      have hcs : sep ∉ cs := fun hm => h (List.mem_cons_of_mem _ hm)
      simp only [splitChar, if_neg hc, ih hcs]

theorem splitChar_append (sep : Char) {a : List Char} (b : List Char) (ha : sep ∉ a) :
    splitChar sep (a ++ sep :: b) = a :: splitChar sep b := by
  induction a with
  | nil => simp [splitChar]
  | cons c cs ih =>
      have hc : ¬(c = sep) := fun hcs => ha (hcs ▸ List.mem_cons_self c cs)
      have hcs : sep ∉ cs := fun hm => ha (List.mem_cons_of_mem _ hm)
      rw [List.cons_append]
      simp only [splitChar, if_neg hc, ih hcs]

theorem not_sep_mem_fmtMin {sep : Char} (w n : ℕ) (hsep : sep = '-' ∨ sep = '/') :
    sep ∉ fmtMin w (n : ℤ) := by
  intro hc
  have hd := fmtMin_nat_all_digits w n sep hc
  rcases hsep with rfl | rfl <;> exact absurd hd (by decide)

theorem mes_to_display_mkMes (y m : ℕ) :
    mes_to_display (mkMes y m) = String.mk (fmtMin 2 (m : ℤ) ++ '/' :: fmtMin 4 (y : ℤ)) := by
  have hdata : (mkMes y m).data = fmtMin 4 (y : ℤ) ++ '-' :: fmtMin 2 (m : ℤ) := rfl
  have hy : ('-' : Char) ∉ fmtMin 4 (y : ℤ) := not_sep_mem_fmtMin 4 y (.inl rfl)
  have hm : ('-' : Char) ∉ fmtMin 2 (m : ℤ) := not_sep_mem_fmtMin 2 m (.inl rfl)
  rw [mes_to_display, hdata, splitChar_append '-' _ hy, splitChar_of_not_mem '-' hm]
  simp only [pyInt_fmtMin_nat]

theorem display_to_mes_of_display (y m : ℕ) :
    display_to_mes (String.mk (fmtMin 2 (m : ℤ) ++ '/' :: fmtMin 4 (y : ℤ))) = mkMes y m := by
  have hy : ('/' : Char) ∉ fmtMin 4 (y : ℤ) := not_sep_mem_fmtMin 4 y (.inr rfl)
  have hm : ('/' : Char) ∉ fmtMin 2 (m : ℤ) := not_sep_mem_fmtMin 2 m (.inr rfl)
  rw [display_to_mes]
  show (match splitChar '/' (fmtMin 2 (m : ℤ) ++ '/' :: fmtMin 4 (y : ℤ)) with
    | [mm, yy] =>
        match pyInt mm, pyInt yy with
        | .ok mi, .ok yi => String.mk (fmtMin 4 yi ++ '-' :: fmtMin 2 mi)
        | _, _ => String.mk (fmtMin 2 (m : ℤ) ++ '/' :: fmtMin 4 (y : ℤ))
    | _ => String.mk (fmtMin 2 (m : ℤ) ++ '/' :: fmtMin 4 (y : ℤ))) = mkMes y m
  rw [splitChar_append '/' _ hm, splitChar_of_not_mem '/' hy]
  simp only [pyInt_fmtMin_nat]
  rfl

/-- Claim C4: for a well-formed internal month token (four-digit year,
two-digit month in 1..12), converting to display `MM/YYYY` form, back to
internal `YYYY-MM` form and to display form again is round-trip stable. -/
theorem month_roundtrip_spec (y m : ℕ) (_hy : y < 10000) (_hm1 : 1 ≤ m) (_hm2 : m ≤ 12) :
    mes_to_display (display_to_mes (mes_to_display (mkMes y m)))
      = mes_to_display (mkMes y m) := by
  rw [mes_to_display_mkMes, display_to_mes_of_display, mes_to_display_mkMes]

theorem month_roundtrip_spec_witness :
    mes_to_display (display_to_mes (mes_to_display (mkMes 2026 2)))
      = mes_to_display (mkMes 2026 2) :=
  month_roundtrip_spec 2026 2 (by norm_num) (by norm_num) (by norm_num)

theorem swapSep_of_isDigit {c : Char} (h : c.isDigit = true) : swapSep c = c := by
  have h1 : c ≠ ',' := by rintro rfl; exact absurd h (by decide)
  have h2 : c ≠ '.' := by rintro rfl; exact absurd h (by decide)
  simp [swapSep, h1, h2]

theorem map_swapSep_digits (l : List Char) (h : ∀ c ∈ l, c.isDigit = true) :
    l.map swapSep = l := by
  have := List.map_congr_left (l := l) (f := swapSep) (g := id)
    fun c hc => swapSep_of_isDigit (h c hc)
  simpa using this

theorem chain_eq_map_swapSep (l : List Char) (hX : ∀ c ∈ l, c ≠ 'X') :
    replaceChar 'X' '.' (replaceChar '.' ',' (replaceChar ',' 'X' l))
      = l.map swapSep := by
  unfold replaceChar
  rw [List.map_map, List.map_map]
  apply List.map_congr_left
  intro c hc
  have hcX := hX c hc
  by_cases h1 : c = ','
  · subst h1; decide
  · by_cases h2 : c = '.'
    · subst h2; decide
    · simp [Function.comp, swapSep, h1, h2, hcX]

theorem pad3_digits (n : ℕ) : ∀ c ∈ pad3 n, c.isDigit = true := by
  intro c hc
  rcases List.mem_append.mp hc with h1 | h2
  · have : c = '0' := List.eq_of_mem_replicate h1
    exact this ▸ (by decide)
  · exact natStr_digits n c h2

theorem pad2_digits (n : ℕ) : ∀ c ∈ pad2 n, c.isDigit = true := by
  intro c hc
  unfold pad2 at hc
  split_ifs at hc with h
  · rcases List.mem_cons.mp hc with h1 | h2
    · exact h1 ▸ (by decide)
    · exact natStr_digits n c h2
  · exact natStr_digits n c hc

theorem groupedStr_chars (sep : Char) (n : ℕ) :
    ∀ c ∈ groupedStr sep n, c.isDigit = true ∨ c = sep := by
  induction n using Nat.strong_induction_on with
  | _ n ih =>
      intro c hc
      rw [groupedStr] at hc
      split_ifs at hc with h
      · exact .inl (natStr_digits n c hc)
      · rcases List.mem_append.mp hc with h1 | h2
        · exact ih (n / 1000) (Nat.div_lt_self (by omega) (by omega)) c h1
        · rcases List.mem_cons.mp h2 with h3 | h4
          · exact .inr h3
          · exact .inl (pad3_digits _ c h4)

theorem swap_groupedStr (n : ℕ) :
    (groupedStr ',' n).map swapSep = groupedStr '.' n := by
  induction n using Nat.strong_induction_on with
  | _ n ih =>
      conv_lhs => rw [groupedStr]
      conv_rhs => rw [groupedStr]
      split_ifs with h
      · exact map_swapSep_digits _ (natStr_digits n)
      · rw [List.map_append, List.map_cons]
        rw [ih (n / 1000) (Nat.div_lt_self (by omega) (by omega)),
          map_swapSep_digits _ (pad3_digits (n % 1000))]
        rfl

theorem pyFormatCommaTwo_no_X (v : ℚ) : ∀ c ∈ pyFormatCommaTwo v, c ≠ 'X' := by
  intro c hc
  unfold pyFormatCommaTwo at hc
  rcases List.mem_append.mp hc with h1 | h2
  · rcases List.mem_append.mp h1 with h3 | h4
    · split_ifs at h3
      · have : c = '-' := by simpa using h3
        subst this; decide
      · simp at h3
    · rcases groupedStr_chars ',' _ c h4 with hd | hs
      · rintro rfl; exact absurd hd (by decide)
      · subst hs; decide
  · rcases List.mem_cons.mp h2 with h3 | h4
    · subst h3; decide
    · have hd := pad2_digits _ c h4
      rintro rfl; exact absurd hd (by decide)

theorem natStr_length_one {n : ℕ} (h : n < 10) : (natStr n).length = 1 := by
  rw [natStr]
  simp [h]

theorem pad2_length {n : ℕ} (h : n < 100) : (pad2 n).length = 2 := by
  unfold pad2
  split_ifs with h10
  · simp [natStr_length_one h10]
  · rw [natStr]
    have h1 : ¬ n < 10 := h10
    simp only [h1, dite_false]
    have h2 : n / 10 < 10 := by omega
    simp [natStr_length_one h2]

theorem roundHalfEven_int (k : ℤ) : roundHalfEven (k : ℚ) = k := by
  unfold roundHalfEven
  norm_num

theorem brl_num (v : ℚ) :
    brl (.num v) = "R$ " ++ String.mk
      ((if v < 0 then ['-'] else []) ++
       groupedStr '.' ((roundHalfEven (100 * v)).natAbs / 100) ++
       ',' :: pad2 ((roundHalfEven (100 * v)).natAbs % 100)) := by
  show "R$ " ++ String.mk (replaceChar 'X' '.' (replaceChar '.' ','
      (replaceChar ',' 'X' (pyFormatCommaTwo v)))) = _
  rw [chain_eq_map_swapSep _ (pyFormatCommaTwo_no_X v)]
  unfold pyFormatCommaTwo
  rw [List.map_append, List.map_append, List.map_cons]
  have hsign : List.map swapSep (if v < 0 then ['-'] else [])
      = (if v < 0 then ['-'] else []) := by
    split_ifs <;> rfl
  rw [hsign, swap_groupedStr, map_swapSep_digits _ (pad2_digits _)]
  simp [swapSep]

theorem natStr_one : natStr 1 = ['1'] := by
  rw [natStr]; norm_num; decide

theorem natStr_two : natStr 2 = ['2'] := by
  rw [natStr]; norm_num; decide

theorem natStr_five : natStr 5 = ['5'] := by
  rw [natStr]; norm_num; decide

theorem natStr_zero : natStr 0 = ['0'] := by
  rw [natStr]; norm_num; decide

theorem natStr_twentythree : natStr 23 = ['2', '3'] := by
  rw [natStr]; norm_num [natStr_two]; decide

theorem natStr_group234 : natStr 234 = ['2', '3', '4'] := by
  rw [natStr]; norm_num [natStr_twentythree]; decide

theorem natStr_fifty : natStr 50 = ['5', '0'] := by
  rw [natStr]; norm_num [natStr_five]; decide

theorem groupedStr_one : groupedStr '.' 1 = ['1'] := by
  rw [groupedStr]; norm_num [natStr_one]

theorem groupedStr_zero : groupedStr '.' 0 = ['0'] := by
  rw [groupedStr]; norm_num [natStr_zero]

theorem groupedStr_big : groupedStr '.' 1234 = ['1', '.', '2', '3', '4'] := by
  rw [groupedStr]
  norm_num [groupedStr_one, natStr_group234, pad3]

theorem pad2_fifty : pad2 50 = ['5', '0'] := by
  rw [pad2]; norm_num [natStr_fifty]

theorem pad2_zero : pad2 0 = ['0', '0'] := by
  rw [pad2]; norm_num [natStr_zero]

/-- Claim C3: on any numeric value `brl` yields the fixed `R$ ` prefix, an
optional sign, the integer part grouped in threes by periods, then a comma
and exactly two fraction digits; `1234.5` formats to `R$ 1.234,50`; on a
value `float` cannot parse it never raises and returns the zero-amount
string `R$ 0,00`. -/
theorem brl_format_spec :
    (∀ v : ℚ, brl (.num v) = "R$ " ++ String.mk
        ((if v < 0 then ['-'] else []) ++
         groupedStr '.' ((roundHalfEven (100 * v)).natAbs / 100) ++
         ',' :: pad2 ((roundHalfEven (100 * v)).natAbs % 100)) ∧
      (pad2 ((roundHalfEven (100 * v)).natAbs % 100)).length = 2) ∧
    brl (.num (1234.5 : ℚ)) = "R$ 1.234,50" ∧
    (∀ x : PyValue, pyFloat x = .error () → brl x = brl (.num 0)) ∧
    brl (.num 0) = "R$ 0,00" := by
  refine ⟨fun v => ⟨brl_num v, pad2_length (Nat.mod_lt _ (by norm_num))⟩, ?_, ?_, ?_⟩
  · rw [brl_num]
    have hv : ¬((1234.5 : ℚ) < 0) := by norm_num
    have hr : roundHalfEven (100 * (1234.5 : ℚ)) = 123450 := by
      have h100 : (100 : ℚ) * 1234.5 = ((123450 : ℤ) : ℚ) := by norm_num
      rw [h100, roundHalfEven_int]
    rw [hr, if_neg hv]
    have habs : ((123450 : ℤ)).natAbs = 123450 := rfl
    rw [habs]
    norm_num
    rw [groupedStr_big, pad2_fifty]
    decide
  · intro x hx
    cases x with
    | num q => simp [pyFloat] at hx
    | nonNum => rfl
  · rw [brl_num]
    have hv : ¬((0 : ℚ) < 0) := by norm_num
    have hr : roundHalfEven (100 * (0 : ℚ)) = 0 := by
      have h100 : (100 : ℚ) * 0 = ((0 : ℤ) : ℚ) := by norm_num
      rw [h100, roundHalfEven_int]
    rw [hr, if_neg hv]
    have habs : ((0 : ℤ)).natAbs = 0 := rfl
    rw [habs]
    norm_num
    rw [groupedStr_zero, pad2_zero]
    decide

theorem brl_format_spec_witness : brl .nonNum = brl (.num 0) :=
  brl_format_spec.2.2.1 .nonNum rfl

end App
